/-
Verification of the ping-pong demo-services repository.

The repository is a set of small Go HTTP demo services.  This file gives a
shallow embedding of the parts the claims concern:

* the discount pure-function calculator (`calculateDiscount`);
* the sales-report generator (`fetchTransactions`, `aggregateByRegion`);
* the travel-itinerary fan-out aggregator.

Go `float64` values are modelled as exact rationals (`ℚ`); the algorithms
under verification are arithmetic-generic, and the claims are stated in
exact arithmetic.  Go's `math/rand` source is modelled as an explicit
oracle parameter (a function from the call index to the drawn value).
-/
import Mathlib

/-! ## Discount calculator

Embedding of `calculateDiscount` from the discount service: a `switch` on
the user category selects a discount rate (0.20 for "premium", 0.10 for
"gold", 0 otherwise); the discount amount is `price * rate` and the final
price is `price - discountAmount`. -/

def calculateDiscount (price : ℚ) (category : String) : ℚ × ℚ :=
  let discountRate : ℚ :=
    match category with
    | "premium" => 20 / 100
    | "gold" => 10 / 100
    | _ => 0
  let discountAmount := price * discountRate
  let finalPrice := price - discountAmount
  (discountAmount, finalPrice)

/-! ## Sales report generator

Embedding of `LiveTransactionFetcher.FetchTransactions` and
`LiveReportAggregator.AggregateByRegion` from the sales-report service. -/

structure Transaction where
  id : Nat
  productID : String
  region : String
  amount : ℚ
deriving DecidableEq

structure RegionalSummary where
  totalSales : ℚ
  numTrans : Nat
deriving DecidableEq

/-- The five hard-coded region names of `FetchTransactions`. -/
def fetchRegions : List String :=
  ["Asia", "Europe", "North America", "South America", "Africa"]

/-- `LiveTransactionFetcher.FetchTransactions`: rejects requests above
100000 records, otherwise allocates `recordCount` transactions filled with
pseudo-random data.  The three `rand` draws per record are modelled by the
oracles `randProd`, `randRegion`, `randAmount` (indexed by loop counter);
`rand.Intn n` is modelled as the drawn value modulo `n`. -/
def fetchTransactions (randProd randRegion : Nat → Nat) (randAmount : Nat → ℚ)
    (recordCount : Nat) : Option (List Transaction) :=
  if recordCount > 100000 then
    none
  else
    some ((List.range recordCount).map fun i =>
      { id := i
        productID := "PROD-" ++ toString (randProd i % 1000)
        region := fetchRegions.getD (randRegion i % fetchRegions.length) ""
        amount := randAmount i * 500 })

/-- Go map lookup with zero-value default: `summary[tx.Region]` yields the
zero `RegionalSummary` when the key is absent. -/
def lookupSummary : List (String × RegionalSummary) → String → RegionalSummary
  | [], _ => ⟨0, 0⟩
  | (k', v') :: rest, k => if k' = k then v' else lookupSummary rest k

/-- Go map store `summary[tx.Region] = regionData`: replace the binding if
the key is present, otherwise add it. -/
def insertSummary : List (String × RegionalSummary) → String → RegionalSummary →
    List (String × RegionalSummary)
  | [], k, v => [(k, v)]
  | (k', v') :: rest, k, v =>
    if k' = k then (k, v) :: rest else (k', v') :: insertSummary rest k v

/-- The body of the `AggregateByRegion` loop: read the region's running
summary (zero if absent), add the transaction's amount, bump the count,
store it back. -/
def aggregateStep (summary : List (String × RegionalSummary)) (tx : Transaction) :
    List (String × RegionalSummary) :=
  let regionData := lookupSummary summary tx.region
  insertSummary summary tx.region
    ⟨regionData.totalSales + tx.amount, regionData.numTrans + 1⟩

/-- `LiveReportAggregator.AggregateByRegion`: fold over the transactions,
accumulating per-region total sales and transaction counts in a map
(modelled as an association list). -/
def aggregateByRegion (transactions : List Transaction) :
    List (String × RegionalSummary) :=
  transactions.foldl aggregateStep []

/-- Sum of `TotalSales` over all regions of a report. -/
def reportTotalSales (m : List (String × RegionalSummary)) : ℚ :=
  (m.map (fun p => p.2.totalSales)).sum

/-- Sum of `NumTrans` over all regions of a report. -/
def reportNumTrans (m : List (String × RegionalSummary)) : Nat :=
  (m.map (fun p => p.2.numTrans)).sum

/-! ## Travel-itinerary fan-out aggregator

The aggregator endpoint (`POST /generate-itinerary`) is described in the
specification but its source file is not part of the source tree shipped
here, so the component is modelled from the specification text. -/

/-- Modelled from the spec: a flight deal `{ airline, price }`. -/
structure FlightDeal where
  airline : String
  price : ℚ
deriving DecidableEq

/-- Modelled from the spec: a hotel deal `{ hotelName, pricePerNight }`. -/
structure HotelDeal where
  hotelName : String
  pricePerNight : ℚ
deriving DecidableEq

/-- Modelled from the spec: an activity deal
`{ name, pricePerPerson, description }`. -/
structure ActivityDeal where
  name : String
  pricePerPerson : ℚ
  description : String
deriving DecidableEq

/-- Modelled from the spec: the three deal categories (collaborators). -/
inductive Category where
  | flights
  | hotels
  | activities
deriving DecidableEq

/-- Modelled from the spec: the three deal-source collaborators, each a
function of the destination returning a typed deal list or an error. -/
structure Finders where
  findFlights : String → Except String (List FlightDeal)
  findHotels : String → Except String (List HotelDeal)
  findActivities : String → Except String (List ActivityDeal)

/-- Modelled from the spec: the merged response: one optional deal list per
category plus the list of error strings. -/
structure ItineraryResponse where
  flights : Option (List FlightDeal)
  hotels : Option (List HotelDeal)
  activities : Option (List ActivityDeal)
  errors : List String
deriving DecidableEq

/-- Modelled from the spec: the empty response created per request. -/
def emptyResponse : ItineraryResponse := ⟨none, none, none, []⟩

/-- Modelled from the spec: the category tag prefixed to an error string
(e.g. `"Flights: <error>"`). -/
def catLabel : Category → String
  | .flights => "Flights: "
  | .hotels => "Hotels: "
  | .activities => "Activities: "

/-- Modelled from the spec: what one concurrent unit does to the shared
response once its collaborator call settles: on success write the deal
list into the category's slot, on failure append a category-prefixed
error string. -/
def applyOutcome (f : Finders) (dest : String) (resp : ItineraryResponse) :
    Category → ItineraryResponse
  | .flights =>
    match f.findFlights dest with
    | .ok deals => { resp with flights := some deals }
    | .error e => { resp with errors := resp.errors ++ [catLabel .flights ++ e] }
  | .hotels =>
    match f.findHotels dest with
    | .ok deals => { resp with hotels := some deals }
    | .error e => { resp with errors := resp.errors ++ [catLabel .hotels ++ e] }
  | .activities =>
    match f.findActivities dest with
    | .ok deals => { resp with activities := some deals }
    | .error e => { resp with errors := resp.errors ++ [catLabel .activities ++ e] }

/-- The three categories, in launch order. -/
def allCategories : List Category := [.flights, .hotels, .activities]

/-- Modelled from the spec: the merged response produced when the three
collaborator calls settle in completion order `order` (the scheduler's
choice; any permutation of `allCategories`). -/
def aggregateIn (f : Finders) (dest : String) (order : List Category) :
    ItineraryResponse :=
  order.foldl (applyOutcome f dest) emptyResponse

/-- Modelled from the spec: `aggregate(destination)`, with the canonical
completion order.  Nondeterministic schedules are covered by `aggregateIn`
at an arbitrary permutation of `allCategories`. -/
def aggregate (f : Finders) (dest : String) : ItineraryResponse :=
  aggregateIn f dest allCategories

/-- An HTTP response of the itinerary endpoint: status code and optional
decoded body. -/
structure HttpResponse where
  status : Nat
  body : Option ItineraryResponse
deriving DecidableEq

/-- Modelled from the spec: the `POST /generate-itinerary` handler.  The
request-body decode step is modelled by its result: `some dest` when the
body decoded to a destination, `none` when decoding failed.  The handler
also returns the list of collaborators it invoked. -/
def handleGenerateItinerary (f : Finders) (decoded : Option String) :
    HttpResponse × List Category :=
  match decoded with
  | none => (⟨400, none⟩, [])
  | some dest => (⟨200, some (aggregate f dest)⟩, allCategories)

/-! ### Concurrency model of the coordinator

Each of the three concurrent units proceeds through four phases: `calling`
(its collaborator call is in flight), `waitingLock` (call settled, waiting
to acquire the response lock), `writing` (holding the lock, writing its
outcome into the shared response), `done` (lock released).  The
coordinator emits the response only at the join barrier. -/

/-- Modelled from the spec: the phase of one concurrent unit. -/
inductive UnitPhase where
  | calling
  | waitingLock
  | writing
  | done
deriving DecidableEq

/-- Modelled from the spec: the coordinator's state: one phase per unit,
the owner of the mutual-exclusion lock, the shared response, and the
emitted response (once the barrier is passed). -/
structure CoordState where
  fphase : UnitPhase
  hphase : UnitPhase
  aphase : UnitPhase
  lockOwner : Option Category
  resp : ItineraryResponse
  returned : Option ItineraryResponse
deriving DecidableEq

/-- Phase of the unit for category `c`. -/
def getPhase (s : CoordState) : Category → UnitPhase
  | .flights => s.fphase
  | .hotels => s.hphase
  | .activities => s.aphase

/-- Replace the phase of the unit for category `c`. -/
def setPhase (s : CoordState) : Category → UnitPhase → CoordState
  | .flights, p => { s with fphase := p }
  | .hotels, p => { s with hphase := p }
  | .activities, p => { s with aphase := p }

/-- The coordinator's initial state: all three calls in flight, lock free,
empty response, nothing emitted. -/
def initState : CoordState :=
  ⟨.calling, .calling, .calling, none, emptyResponse, none⟩

/-- Replace the lock owner. -/
def withLock (s : CoordState) (o : Option Category) : CoordState :=
  { s with lockOwner := o }

/-- Replace the shared response. -/
def withResp (s : CoordState) (r : ItineraryResponse) : CoordState :=
  { s with resp := r }

/-- Replace the emitted response. -/
def withReturned (s : CoordState) (r : Option ItineraryResponse) : CoordState :=
  { s with returned := r }

/-- Modelled from the spec: one interleaved step of the coordinator's
three concurrent units.  A unit's collaborator call settles; the unit
acquires the free lock; the unit writes its outcome and releases the
lock; the coordinator emits the response once all three units are done
(the join barrier). -/
inductive CoordStep (f : Finders) (dest : String) : CoordState → CoordState → Prop
  | callDone (s : CoordState) (c : Category) :
      getPhase s c = .calling →
      CoordStep f dest s (setPhase s c .waitingLock)
  | acquireLock (s : CoordState) (c : Category) :
      getPhase s c = .waitingLock → s.lockOwner = none →
      CoordStep f dest s (withLock (setPhase s c .writing) (some c))
  | releaseLock (s : CoordState) (c : Category) :
      getPhase s c = .writing →
      CoordStep f dest s
        (withResp (withLock (setPhase s c .done) none)
          (applyOutcome f dest s.resp c))
  | emit (s : CoordState) :
      getPhase s .flights = .done → getPhase s .hotels = .done →
      getPhase s .activities = .done → s.returned = none →
      CoordStep f dest s (withReturned s (some s.resp))

/-- States reachable from the coordinator's initial state. -/
def Reachable (f : Finders) (dest : String) (s : CoordState) : Prop :=
  Relation.ReflTransGen (CoordStep f dest) initState s

/-! ## Lemmas: sales report -/

theorem reportTotalSales_insertSummary (m : List (String × RegionalSummary))
    (k : String) (v : RegionalSummary) :
    reportTotalSales (insertSummary m k v) =
      reportTotalSales m - (lookupSummary m k).totalSales + v.totalSales := by
  induction m with
  | nil => simp [insertSummary, lookupSummary, reportTotalSales]
  | cons p rest ih =>
    obtain ⟨k', v'⟩ := p
    by_cases h : k' = k
    · subst h
      simp [insertSummary, lookupSummary, reportTotalSales]
      ring
    · simp only [insertSummary, lookupSummary, if_neg h, reportTotalSales,
        List.map_cons, List.sum_cons] at *
      rw [ih]
      ring

theorem reportNumTrans_insertSummary (m : List (String × RegionalSummary))
    (k : String) (v : RegionalSummary) :
    reportNumTrans (insertSummary m k v) + (lookupSummary m k).numTrans =
      reportNumTrans m + v.numTrans := by
  induction m with
  | nil => simp [insertSummary, lookupSummary, reportNumTrans]
  | cons p rest ih =>
    obtain ⟨k', v'⟩ := p
    by_cases h : k' = k
    · subst h
      simp [insertSummary, lookupSummary, reportNumTrans]
      omega
    · simp only [insertSummary, lookupSummary, if_neg h, reportNumTrans,
        List.map_cons, List.sum_cons] at *
      omega

theorem reportTotalSales_aggregateStep (m : List (String × RegionalSummary))
    (tx : Transaction) :
    reportTotalSales (aggregateStep m tx) = reportTotalSales m + tx.amount := by
  rw [aggregateStep, reportTotalSales_insertSummary]
  ring

theorem reportNumTrans_aggregateStep (m : List (String × RegionalSummary))
    (tx : Transaction) :
    reportNumTrans (aggregateStep m tx) = reportNumTrans m + 1 := by
  have h := reportNumTrans_insertSummary m tx.region
    ⟨(lookupSummary m tx.region).totalSales + tx.amount,
     (lookupSummary m tx.region).numTrans + 1⟩
  dsimp only at h
  rw [aggregateStep]
  omega

theorem reportTotalSales_foldl (txs : List Transaction)
    (init : List (String × RegionalSummary)) :
    reportTotalSales (txs.foldl aggregateStep init) =
      reportTotalSales init + (txs.map (fun tx => tx.amount)).sum := by
  induction txs generalizing init with
  | nil => simp
  | cons tx txs ih =>
    rw [List.foldl_cons, ih, reportTotalSales_aggregateStep]
    simp
    ring

theorem reportNumTrans_foldl (txs : List Transaction)
    (init : List (String × RegionalSummary)) :
    reportNumTrans (txs.foldl aggregateStep init) =
      reportNumTrans init + txs.length := by
  induction txs generalizing init with
  | nil => simp
  | cons tx txs ih =>
    rw [List.foldl_cons, ih, reportNumTrans_aggregateStep]
    simp
    omega

/-! ## Lemmas: itinerary aggregator -/

/-- The error entry a category contributes (if its collaborator fails). -/
def errEntry (f : Finders) (dest : String) : Category → Option String
  | .flights =>
    match f.findFlights dest with
    | .ok _ => none
    | .error e => some (catLabel .flights ++ e)
  | .hotels =>
    match f.findHotels dest with
    | .ok _ => none
    | .error e => some (catLabel .hotels ++ e)
  | .activities =>
    match f.findActivities dest with
    | .ok _ => none
    | .error e => some (catLabel .activities ++ e)

theorem flights_foldl (f : Finders) (dest : String) (l : List Category)
    (init : ItineraryResponse) :
    (l.foldl (applyOutcome f dest) init).flights =
      if Category.flights ∈ l then
        (match f.findFlights dest with
         | .ok d => some d
         | .error _ => init.flights)
      else init.flights := by
  induction l generalizing init with
  | nil => simp
  | cons c l ih =>
    rw [List.foldl_cons, ih]
    cases c
    case flights =>
      rcases hf : f.findFlights dest with d | e <;>
        simp [applyOutcome, hf, List.mem_cons]
    case hotels =>
      rcases hh : f.findHotels dest with d | e <;>
        simp [applyOutcome, hh, List.mem_cons]
    case activities =>
      rcases ha : f.findActivities dest with d | e <;>
        simp [applyOutcome, ha, List.mem_cons]

theorem hotels_foldl (f : Finders) (dest : String) (l : List Category)
    (init : ItineraryResponse) :
    (l.foldl (applyOutcome f dest) init).hotels =
      if Category.hotels ∈ l then
        (match f.findHotels dest with
         | .ok d => some d
         | .error _ => init.hotels)
      else init.hotels := by
  induction l generalizing init with
  | nil => simp
  | cons c l ih =>
    rw [List.foldl_cons, ih]
    cases c
    case flights =>
      rcases hf : f.findFlights dest with d | e <;>
        simp [applyOutcome, hf, List.mem_cons]
    case hotels =>
      rcases hh : f.findHotels dest with d | e <;>
        simp [applyOutcome, hh, List.mem_cons]
    case activities =>
      rcases ha : f.findActivities dest with d | e <;>
        simp [applyOutcome, ha, List.mem_cons]

theorem activities_foldl (f : Finders) (dest : String) (l : List Category)
    (init : ItineraryResponse) :
    (l.foldl (applyOutcome f dest) init).activities =
      if Category.activities ∈ l then
        (match f.findActivities dest with
         | .ok d => some d
         | .error _ => init.activities)
      else init.activities := by
  induction l generalizing init with
  | nil => simp
  | cons c l ih =>
    rw [List.foldl_cons, ih]
    cases c
    case flights =>
      rcases hf : f.findFlights dest with d | e <;>
        simp [applyOutcome, hf, List.mem_cons]
    case hotels =>
      rcases hh : f.findHotels dest with d | e <;>
        simp [applyOutcome, hh, List.mem_cons]
    case activities =>
      rcases ha : f.findActivities dest with d | e <;>
        simp [applyOutcome, ha, List.mem_cons]

theorem errors_foldl (f : Finders) (dest : String) (l : List Category)
    (init : ItineraryResponse) :
    (l.foldl (applyOutcome f dest) init).errors =
      init.errors ++ l.filterMap (errEntry f dest) := by
  induction l generalizing init with
  | nil => simp
  | cons c l ih =>
    rw [List.foldl_cons, List.filterMap_cons, ih]
    cases c
    case flights =>
      rcases hf : f.findFlights dest with d | e <;>
        simp [applyOutcome, errEntry, hf]
    case hotels =>
      rcases hh : f.findHotels dest with d | e <;>
        simp [applyOutcome, errEntry, hh]
    case activities =>
      rcases ha : f.findActivities dest with d | e <;>
        simp [applyOutcome, ha, errEntry]

/-- The distinguishing first character of each category's error tag. -/
def catHead : Category → Char
  | .flights => 'F'
  | .hotels => 'H'
  | .activities => 'A'

theorem catLabel_append_head (c : Category) (e : String) :
    ((catLabel c ++ e).data).head? = some (catHead c) := by
  cases c <;> rfl

theorem catLabel_append_inj {c c' : Category} {e e' : String}
    (h : catLabel c ++ e = catLabel c' ++ e') : c = c' ∧ e = e' := by
  have hc : c = c' := by
    have h1 := congrArg (fun s => s.data.head?) h
    simp only [catLabel_append_head] at h1
    cases c <;> cases c' <;> simp_all [catHead]
  subst hc
  refine ⟨rfl, ?_⟩
  have h2 := congrArg String.data h
  rw [String.data_append, String.data_append] at h2
  exact String.ext (List.append_cancel_left h2)

theorem catLabel_append_ne {c c' : Category} (e e' : String) (h : c ≠ c') :
    catLabel c ++ e ≠ catLabel c' ++ e' :=
  fun hh => h (catLabel_append_inj hh).1

/-! ## Lemmas: coordinator concurrency model -/

theorem getPhase_setPhase (s : CoordState) (c c' : Category) (p : UnitPhase) :
    getPhase (setPhase s c p) c' = if c' = c then p else getPhase s c' := by
  cases c <;> cases c' <;> simp [getPhase, setPhase]

theorem getPhase_withLock (s : CoordState) (o : Option Category) (c : Category) :
    getPhase (withLock s o) c = getPhase s c := by
  cases c <;> rfl

theorem getPhase_withResp (s : CoordState) (r : ItineraryResponse) (c : Category) :
    getPhase (withResp s r) c = getPhase s c := by
  cases c <;> rfl

theorem getPhase_withReturned (s : CoordState) (r : Option ItineraryResponse)
    (c : Category) : getPhase (withReturned s r) c = getPhase s c := by
  cases c <;> rfl

theorem setPhase_returned (s : CoordState) (c : Category) (p : UnitPhase) :
    (setPhase s c p).returned = s.returned := by
  cases c <;> rfl

theorem setPhase_lockOwner (s : CoordState) (c : Category) (p : UnitPhase) :
    (setPhase s c p).lockOwner = s.lockOwner := by
  cases c <;> rfl

theorem withLock_lockOwner (s : CoordState) (o : Option Category) :
    (withLock s o).lockOwner = o := rfl

theorem withResp_lockOwner (s : CoordState) (r : ItineraryResponse) :
    (withResp s r).lockOwner = s.lockOwner := rfl

theorem withReturned_lockOwner (s : CoordState) (r : Option ItineraryResponse) :
    (withReturned s r).lockOwner = s.lockOwner := rfl

theorem withLock_returned (s : CoordState) (o : Option Category) :
    (withLock s o).returned = s.returned := rfl

theorem withResp_returned (s : CoordState) (r : ItineraryResponse) :
    (withResp s r).returned = s.returned := rfl

theorem withReturned_returned (s : CoordState) (r : Option ItineraryResponse) :
    (withReturned s r).returned = r := rfl

/-- One step preserves the barrier invariant (emitted → all units done). -/
theorem barrier_inv_step (f : Finders) (dest : String) (s s' : CoordState)
    (hstep : CoordStep f dest s s')
    (ih : s.returned ≠ none → ∀ c, getPhase s c = .done) :
    s'.returned ≠ none → ∀ c, getPhase s' c = .done := by
  cases hstep with
  | callDone c0 hc0 =>
    intro hret c'
    rw [setPhase_returned] at hret
    have hd := ih hret c0
    rw [hd] at hc0
    cases hc0
  | acquireLock c0 hc0 hfree =>
    intro hret c'
    rw [withLock_returned, setPhase_returned] at hret
    have hd := ih hret c0
    rw [hd] at hc0
    cases hc0
  | releaseLock c0 hc0 =>
    intro hret c'
    rw [withResp_returned, withLock_returned, setPhase_returned] at hret
    have hd := ih hret c0
    rw [hd] at hc0
    cases hc0
  | emit h1 h2 h3 h4 =>
    intro _ c'
    rw [getPhase_withReturned]
    cases c'
    · exact h1
    · exact h2
    · exact h3

/-- One step preserves the lock invariant (owner ↔ unit in write phase). -/
theorem lock_inv_step (f : Finders) (dest : String) (s s' : CoordState)
    (hstep : CoordStep f dest s s')
    (ih : ∀ c, s.lockOwner = some c ↔ getPhase s c = .writing) :
    ∀ c, s'.lockOwner = some c ↔ getPhase s' c = .writing := by
  cases hstep with
  | callDone c0 hc0 =>
    intro c
    rw [setPhase_lockOwner, getPhase_setPhase]
    by_cases hc : c = c0
    · subst hc
      rw [if_pos rfl]
      constructor
      · intro hl
        have hw := (ih c).mp hl
        rw [hw] at hc0
        cases hc0
      · intro hw; cases hw
    · rw [if_neg hc]
      exact ih c
  | acquireLock c0 hc0 hfree =>
    intro c
    rw [withLock_lockOwner, getPhase_withLock, getPhase_setPhase]
    by_cases hc : c = c0
    · subst hc; simp
    · rw [if_neg hc]
      constructor
      · intro hsome
        exact absurd (Option.some.inj hsome).symm hc
      · intro hw
        have := (ih c).mpr hw
        rw [hfree] at this
        cases this
  | releaseLock c0 hc0 =>
    intro c
    rw [withResp_lockOwner, withLock_lockOwner, getPhase_withResp,
      getPhase_withLock, getPhase_setPhase]
    by_cases hc : c = c0
    · subst hc; simp
    · rw [if_neg hc]
      constructor
      · intro hnone; cases hnone
      · intro hw
        have h1 := (ih c).mpr hw
        have h2 := (ih c0).mpr hc0
        rw [h1] at h2
        exact absurd (Option.some.inj h2) hc
  | emit h1 h2 h3 h4 =>
    intro c
    rw [withReturned_lockOwner, getPhase_withReturned]
    exact ih c

/-- Barrier invariant holds in every reachable state. -/
theorem barrier_inv (f : Finders) (dest : String) (s : CoordState)
    (hr : Reachable f dest s) :
    s.returned ≠ none → ∀ c, getPhase s c = .done := by
  induction hr with
  | refl => intro h; exact absurd rfl h
  | tail _ hbc ih => exact barrier_inv_step f dest _ _ hbc ih

/-- Lock invariant holds in every reachable state. -/
theorem lock_inv (f : Finders) (dest : String) (s : CoordState)
    (hr : Reachable f dest s) :
    ∀ c, s.lockOwner = some c ↔ getPhase s c = .writing := by
  induction hr with
  | refl =>
    intro c
    constructor
    · intro h; cases h
    · intro h
      cases c <;> simp [initState, getPhase] at h
  | tail _ hbc ih => exact lock_inv_step f dest _ _ hbc ih

/-! ## Claim theorems -/

/-- C7: the discount calculator is a pure function: two runs with the same
price and the same user category return the same (discount, final price)
pair; the embedding is a function of its arguments alone, so it touches no
shared state. -/
theorem calculateDiscount_pure (p₁ p₂ : ℚ) (c₁ c₂ : String)
    (hp : p₁ = p₂) (hc : c₁ = c₂) :
    calculateDiscount p₁ c₁ = calculateDiscount p₂ c₂ := by
  rw [hp, hc]

theorem calculateDiscount_pure_witness :
    calculateDiscount 100 "gold" = calculateDiscount 100 "gold" :=
  calculateDiscount_pure 100 100 "gold" "gold" rfl rfl

/-- C8: for every price and category, `calculateDiscount` returns
`(price * r, price - price * r)` with `r = 0.20` for "premium", `0.10`
for "gold" and `0` otherwise; hence discount + final price = price. -/
theorem calculateDiscount_values (p : ℚ) (c : String) :
    (c = "premium" →
      calculateDiscount p c = (p * (20 / 100), p - p * (20 / 100))) ∧
    (c = "gold" →
      calculateDiscount p c = (p * (10 / 100), p - p * (10 / 100))) ∧
    (c ≠ "premium" → c ≠ "gold" → calculateDiscount p c = (0, p)) ∧
    (calculateDiscount p c).1 + (calculateDiscount p c).2 = p := by
  refine ⟨?_, ?_, ?_, ?_⟩
  · intro h; subst h; rfl
  · intro h; subst h; rfl
  · intro h1 h2
    unfold calculateDiscount
    split
    · exact absurd rfl h1
    · exact absurd rfl h2
    · simp
  · unfold calculateDiscount
    split <;> ring

theorem calculateDiscount_values_witness :
    calculateDiscount 150 "premium" = (150 * (20 / 100), 150 - 150 * (20 / 100)) ∧
    calculateDiscount 150 "silver" = (0, 150) := by
  constructor
  · exact (calculateDiscount_values 150 "premium").1 rfl
  · exact (calculateDiscount_values 150 "silver").2.2.1 (by decide) (by decide)

/-- C9: `FetchTransactions` returns an error exactly when more than 100000
records are requested, and on success returns exactly `recordCount`
transactions. -/
theorem fetchTransactions_spec (randProd randRegion : Nat → Nat)
    (randAmount : Nat → ℚ) (recordCount : Nat) :
    (fetchTransactions randProd randRegion randAmount recordCount = none ↔
      recordCount > 100000) ∧
    (∀ l, fetchTransactions randProd randRegion randAmount recordCount = some l →
      l.length = recordCount) := by
  constructor
  · unfold fetchTransactions
    split
    · simp_all
    · simp_all
  · intro l hl
    unfold fetchTransactions at hl
    split at hl
    · cases hl
    · cases hl
      simp

theorem fetchTransactions_spec_witness :
    fetchTransactions (fun _ => 0) (fun _ => 0) (fun _ => 0) 100001 = none ∧
    ([⟨0, "PROD-0", "Asia", 0 * 500⟩, ⟨1, "PROD-0", "Asia", 0 * 500⟩] :
      List Transaction).length = 2 := by
  constructor
  · exact (fetchTransactions_spec (fun _ => 0) (fun _ => 0) (fun _ => 0)
      100001).1.mpr (by decide)
  · exact (fetchTransactions_spec (fun _ => 0) (fun _ => 0) (fun _ => 0)
      2).2 _ (by rfl)

/-- C10: `AggregateByRegion` conserves totals: summing `TotalSales` over
all regions gives the sum of the input amounts, and summing `NumTrans`
gives the number of input transactions. -/
theorem aggregateByRegion_conserves (transactions : List Transaction) :
    reportTotalSales (aggregateByRegion transactions) =
      (transactions.map (fun tx => tx.amount)).sum ∧
    reportNumTrans (aggregateByRegion transactions) = transactions.length := by
  constructor
  · rw [aggregateByRegion, reportTotalSales_foldl]
    simp [reportTotalSales]
  · rw [aggregateByRegion, reportNumTrans_foldl]
    simp [reportNumTrans]

/-- C2: whenever the request body decodes, the endpoint answers with HTTP
200 and a full `ItineraryResponse`, whatever the three collaborators do;
`aggregate` is a total function, so collaborator errors cannot escape it. -/
theorem generateItinerary_ok_status (f : Finders) (dest : String) :
    (handleGenerateItinerary f (some dest)).1.status = 200 ∧
    (handleGenerateItinerary f (some dest)).1.body = some (aggregate f dest) :=
  ⟨rfl, rfl⟩

/-- C3: whenever the request body fails to decode, the endpoint answers
with HTTP 400, invokes no collaborator, and the outcome is independent of
the collaborators entirely. -/
theorem generateItinerary_badRequest (f g : Finders) :
    (handleGenerateItinerary f none).1.status = 400 ∧
    (handleGenerateItinerary f none).2 = [] ∧
    handleGenerateItinerary f none = handleGenerateItinerary g none :=
  ⟨rfl, rfl, rfl⟩

theorem catLabel_append_eq_iff (c : Category) (e e' : String) :
    catLabel c ++ e = catLabel c ++ e' ↔ e = e' :=
  ⟨fun h => (catLabel_append_inj h).2, fun h => by rw [h]⟩

/-- C6: two runs of the aggregate operation with the same deterministic
collaborators, under any two completion orders of the three calls, give
the same deal lists and the same error entries up to reordering. -/
theorem aggregate_deterministic_upto_errors (f : Finders) (dest : String)
    (ord₁ ord₂ : List Category)
    (h₁ : ord₁.Perm allCategories) (h₂ : ord₂.Perm allCategories) :
    (aggregateIn f dest ord₁).flights = (aggregateIn f dest ord₂).flights ∧
    (aggregateIn f dest ord₁).hotels = (aggregateIn f dest ord₂).hotels ∧
    (aggregateIn f dest ord₁).activities = (aggregateIn f dest ord₂).activities ∧
    (aggregateIn f dest ord₁).errors.Perm (aggregateIn f dest ord₂).errors := by
  have mf₁ : Category.flights ∈ ord₁ := h₁.mem_iff.mpr (by decide)
  have mf₂ : Category.flights ∈ ord₂ := h₂.mem_iff.mpr (by decide)
  have mh₁ : Category.hotels ∈ ord₁ := h₁.mem_iff.mpr (by decide)
  have mh₂ : Category.hotels ∈ ord₂ := h₂.mem_iff.mpr (by decide)
  have ma₁ : Category.activities ∈ ord₁ := h₁.mem_iff.mpr (by decide)
  have ma₂ : Category.activities ∈ ord₂ := h₂.mem_iff.mpr (by decide)
  refine ⟨?_, ?_, ?_, ?_⟩
  · rw [aggregateIn, aggregateIn, flights_foldl, flights_foldl,
      if_pos mf₁, if_pos mf₂]
  · rw [aggregateIn, aggregateIn, hotels_foldl, hotels_foldl,
      if_pos mh₁, if_pos mh₂]
  · rw [aggregateIn, aggregateIn, activities_foldl, activities_foldl,
      if_pos ma₁, if_pos ma₂]
  · rw [aggregateIn, aggregateIn, errors_foldl, errors_foldl]
    exact (h₁.trans h₂.symm).filterMap (errEntry f dest)

/-- Deterministic mock collaborators: flights and activities succeed with
empty deal lists, the hotel collaborator fails. -/
def mixedFinders : Finders :=
  ⟨fun _ => .ok [], fun _ => .error "no hotels available",
   fun _ => .ok []⟩

theorem aggregate_deterministic_upto_errors_witness :
    (aggregateIn mixedFinders "Bali" [.hotels, .flights, .activities]).flights =
      (aggregateIn mixedFinders "Bali" allCategories).flights ∧
    (aggregateIn mixedFinders "Bali" [.hotels, .flights, .activities]).hotels =
      (aggregateIn mixedFinders "Bali" allCategories).hotels ∧
    (aggregateIn mixedFinders "Bali" [.hotels, .flights, .activities]).activities =
      (aggregateIn mixedFinders "Bali" allCategories).activities ∧
    (aggregateIn mixedFinders "Bali" [.hotels, .flights, .activities]).errors.Perm
      (aggregateIn mixedFinders "Bali" allCategories).errors :=
  aggregate_deterministic_upto_errors mixedFinders "Bali"
    [.hotels, .flights, .activities] allCategories (by decide) (by decide)

/-- C1: after the aggregate operation completes, each failing category
contributes exactly one (category-prefixed) string to `errors` and its
slot is empty, each succeeding category's slot holds exactly the deal
list its collaborator returned and it contributes no error entry; no
category contributes both. -/
theorem aggregate_category_invariant (f : Finders) (dest : String) :
    (∀ e, f.findFlights dest = .error e →
      (aggregate f dest).flights = none ∧
      (aggregate f dest).errors.count (catLabel .flights ++ e) = 1 ∧
      ∀ e', e' ≠ e → (catLabel .flights ++ e') ∉ (aggregate f dest).errors) ∧
    (∀ d, f.findFlights dest = .ok d →
      (aggregate f dest).flights = some d ∧
      ∀ e', (catLabel .flights ++ e') ∉ (aggregate f dest).errors) ∧
    (∀ e, f.findHotels dest = .error e →
      (aggregate f dest).hotels = none ∧
      (aggregate f dest).errors.count (catLabel .hotels ++ e) = 1 ∧
      ∀ e', e' ≠ e → (catLabel .hotels ++ e') ∉ (aggregate f dest).errors) ∧
    (∀ d, f.findHotels dest = .ok d →
      (aggregate f dest).hotels = some d ∧
      ∀ e', (catLabel .hotels ++ e') ∉ (aggregate f dest).errors) ∧
    (∀ e, f.findActivities dest = .error e →
      (aggregate f dest).activities = none ∧
      (aggregate f dest).errors.count (catLabel .activities ++ e) = 1 ∧
      ∀ e', e' ≠ e → (catLabel .activities ++ e') ∉ (aggregate f dest).errors) ∧
    (∀ d, f.findActivities dest = .ok d →
      (aggregate f dest).activities = some d ∧
      ∀ e', (catLabel .activities ++ e') ∉ (aggregate f dest).errors) := by
  have hagg : (aggregate f dest).errors =
      (errEntry f dest .flights).toList ++ (errEntry f dest .hotels).toList ++
        (errEntry f dest .activities).toList := by
    rw [aggregate, aggregateIn, errors_foldl]
    rcases hf : f.findFlights dest with d | e <;>
      rcases hh : f.findHotels dest with d2 | e2 <;>
        rcases ha : f.findActivities dest with d3 | e3 <;>
          simp [allCategories, errEntry, emptyResponse, hf, hh, ha]
  refine ⟨?_, ?_, ?_, ?_, ?_, ?_⟩
  · intro e hfe
    have hE : errEntry f dest .flights = some (catLabel .flights ++ e) := by
      simp [errEntry, hfe]
    refine ⟨?_, ?_, ?_⟩
    · rw [aggregate, aggregateIn, flights_foldl]
      simp [allCategories, hfe, emptyResponse]
    · rw [hagg, hE]
      rcases hh : f.findHotels dest with d2 | e2 <;>
        rcases ha : f.findActivities dest with d3 | e3 <;>
          simp [errEntry, hh, ha, List.count_cons, List.count_append,
            catLabel_append_ne, catLabel_append_eq_iff]
    · intro e' hne
      rw [hagg, hE]
      rcases hh : f.findHotels dest with d2 | e2 <;>
        rcases ha : f.findActivities dest with d3 | e3 <;>
          simp [errEntry, hh, ha, catLabel_append_ne, catLabel_append_eq_iff, hne]
  · intro d hfd
    have hE : errEntry f dest .flights = none := by simp [errEntry, hfd]
    constructor
    · rw [aggregate, aggregateIn, flights_foldl]
      simp [allCategories, hfd, emptyResponse]
    · intro e'
      rw [hagg, hE]
      rcases hh : f.findHotels dest with d2 | e2 <;>
        rcases ha : f.findActivities dest with d3 | e3 <;>
          simp [errEntry, hh, ha, catLabel_append_ne, catLabel_append_eq_iff]
  · intro e hhe
    have hE : errEntry f dest .hotels = some (catLabel .hotels ++ e) := by
      simp [errEntry, hhe]
    refine ⟨?_, ?_, ?_⟩
    · rw [aggregate, aggregateIn, hotels_foldl]
      simp [allCategories, hhe, emptyResponse]
    · rw [hagg, hE]
      rcases hf : f.findFlights dest with d2 | e2 <;>
        rcases ha : f.findActivities dest with d3 | e3 <;>
          simp [errEntry, hf, ha, List.count_cons, List.count_append,
            catLabel_append_ne, catLabel_append_eq_iff]
    · intro e' hne
      rw [hagg, hE]
      rcases hf : f.findFlights dest with d2 | e2 <;>
        rcases ha : f.findActivities dest with d3 | e3 <;>
          simp [errEntry, hf, ha, catLabel_append_ne, catLabel_append_eq_iff, hne]
  · intro d hhd
    have hE : errEntry f dest .hotels = none := by simp [errEntry, hhd]
    constructor
    · rw [aggregate, aggregateIn, hotels_foldl]
      simp [allCategories, hhd, emptyResponse]
    · intro e'
      rw [hagg, hE]
      rcases hf : f.findFlights dest with d2 | e2 <;>
        rcases ha : f.findActivities dest with d3 | e3 <;>
          simp [errEntry, hf, ha, catLabel_append_ne, catLabel_append_eq_iff]
  · intro e hae
    have hE : errEntry f dest .activities = some (catLabel .activities ++ e) := by
      simp [errEntry, hae]
    refine ⟨?_, ?_, ?_⟩
    · rw [aggregate, aggregateIn, activities_foldl]
      simp [allCategories, hae, emptyResponse]
    · rw [hagg, hE]
      rcases hf : f.findFlights dest with d2 | e2 <;>
        rcases hh : f.findHotels dest with d3 | e3 <;>
          simp [errEntry, hf, hh, List.count_cons, List.count_append,
            catLabel_append_ne, catLabel_append_eq_iff]
    · intro e' hne
      rw [hagg, hE]
      rcases hf : f.findFlights dest with d2 | e2 <;>
        rcases hh : f.findHotels dest with d3 | e3 <;>
          simp [errEntry, hf, hh, catLabel_append_ne, catLabel_append_eq_iff, hne]
  · intro d had
    have hE : errEntry f dest .activities = none := by simp [errEntry, had]
    constructor
    · rw [aggregate, aggregateIn, activities_foldl]
      simp [allCategories, had, emptyResponse]
    · intro e'
      rw [hagg, hE]
      rcases hf : f.findFlights dest with d2 | e2 <;>
        rcases hh : f.findHotels dest with d3 | e3 <;>
          simp [errEntry, hf, hh, catLabel_append_ne, catLabel_append_eq_iff]

theorem aggregate_category_invariant_witness :
    (aggregate mixedFinders "Bali").hotels = none ∧
    (aggregate mixedFinders "Bali").errors.count
      (catLabel .hotels ++ "no hotels available") = 1 ∧
    (aggregate mixedFinders "Bali").flights = some [] := by
  obtain ⟨h1, h2, _⟩ := (aggregate_category_invariant mixedFinders "Bali").2.2.1
    "no hotels available" rfl
  exact ⟨h1, h2,
    ((aggregate_category_invariant mixedFinders "Bali").2.1 [] rfl).1⟩

/-- C4: the coordinator never emits the response before all three
collaborator calls have signaled completion: in every reachable state in
which a response has been returned, every unit has passed through its
whole lifecycle (a join barrier, not a first-to-finish race). -/
theorem coordinator_barrier (f : Finders) (dest : String) (s : CoordState)
    (r : ItineraryResponse) (hr : Reachable f dest s)
    (hret : s.returned = some r) :
    ∀ c, getPhase s c = .done := by
  intro c
  exact barrier_inv f dest s hr (by rw [hret]; exact Option.some_ne_none r) c

/-- C5: write access to the shared response is mutually exclusive — no
two units are in their write section at once — and the lock is held only
for the write: its owner is always in the `writing` phase, never still
inside its collaborator call. -/
theorem coordinator_write_mutex (f : Finders) (dest : String) (s : CoordState)
    (hr : Reachable f dest s) :
    (∀ c₁ c₂, getPhase s c₁ = .writing → getPhase s c₂ = .writing → c₁ = c₂) ∧
    (∀ c, s.lockOwner = some c →
      getPhase s c = .writing ∧ getPhase s c ≠ .calling) := by
  have hinv := lock_inv f dest s hr
  constructor
  · intro c₁ c₂ hw1 hw2
    have o1 := (hinv c₁).mpr hw1
    have o2 := (hinv c₂).mpr hw2
    rw [o1] at o2
    exact Option.some.inj o2
  · intro c hc
    have hw := (hinv c).mp hc
    refine ⟨hw, ?_⟩
    rw [hw]
    decide

/-- Deterministic mock collaborators: all three succeed with empty deal
lists. -/
def demoFinders : Finders :=
  ⟨fun _ => .ok [], fun _ => .ok [], fun _ => .ok []⟩

theorem coordinator_write_mutex_witness :
    getPhase (⟨.writing, .calling, .calling, some .flights, emptyResponse,
        none⟩ : CoordState) .flights = .writing ∧
    getPhase (⟨.writing, .calling, .calling, some .flights, emptyResponse,
        none⟩ : CoordState) .flights ≠ .calling := by
  have hr : Reachable demoFinders "Tokyo"
      ⟨.writing, .calling, .calling, some .flights, emptyResponse, none⟩ := by
    refine Relation.ReflTransGen.head
      (CoordStep.callDone initState .flights rfl) ?_
    exact Relation.ReflTransGen.single
      (CoordStep.acquireLock
        ⟨.waitingLock, .calling, .calling, none, emptyResponse, none⟩
        .flights rfl rfl)
  exact (coordinator_write_mutex demoFinders "Tokyo" _ hr).2 .flights rfl

theorem coordinator_barrier_witness :
    getPhase (⟨.done, .done, .done, none, ⟨some [], some [], some [], []⟩,
        some ⟨some [], some [], some [], []⟩⟩ : CoordState) .flights = .done ∧
    getPhase (⟨.done, .done, .done, none, ⟨some [], some [], some [], []⟩,
        some ⟨some [], some [], some [], []⟩⟩ : CoordState) .hotels = .done ∧
    getPhase (⟨.done, .done, .done, none, ⟨some [], some [], some [], []⟩,
        some ⟨some [], some [], some [], []⟩⟩ : CoordState) .activities = .done := by
  have hr : Reachable demoFinders "Tokyo"
      ⟨.done, .done, .done, none, ⟨some [], some [], some [], []⟩,
        some ⟨some [], some [], some [], []⟩⟩ := by
    refine Relation.ReflTransGen.head
      (CoordStep.callDone initState .flights rfl) ?_
    refine Relation.ReflTransGen.head
      (CoordStep.acquireLock
        ⟨.waitingLock, .calling, .calling, none, emptyResponse, none⟩
        .flights rfl rfl) ?_
    refine Relation.ReflTransGen.head
      (CoordStep.releaseLock
        ⟨.writing, .calling, .calling, some .flights, emptyResponse, none⟩
        .flights rfl) ?_
    refine Relation.ReflTransGen.head
      (CoordStep.callDone
        ⟨.done, .calling, .calling, none, ⟨some [], none, none, []⟩, none⟩
        .hotels rfl) ?_
    refine Relation.ReflTransGen.head
      (CoordStep.acquireLock
        ⟨.done, .waitingLock, .calling, none, ⟨some [], none, none, []⟩, none⟩
        .hotels rfl rfl) ?_
    refine Relation.ReflTransGen.head
      (CoordStep.releaseLock
        ⟨.done, .writing, .calling, some .hotels, ⟨some [], none, none, []⟩, none⟩
        .hotels rfl) ?_
    refine Relation.ReflTransGen.head
      (CoordStep.callDone
        ⟨.done, .done, .calling, none, ⟨some [], some [], none, []⟩, none⟩
        .activities rfl) ?_
    refine Relation.ReflTransGen.head
      (CoordStep.acquireLock
        ⟨.done, .done, .waitingLock, none, ⟨some [], some [], none, []⟩, none⟩
        .activities rfl rfl) ?_
    refine Relation.ReflTransGen.head
      (CoordStep.releaseLock
        ⟨.done, .done, .writing, some .activities, ⟨some [], some [], none, []⟩,
          none⟩
        .activities rfl) ?_
    exact Relation.ReflTransGen.single
      (CoordStep.emit
        ⟨.done, .done, .done, none, ⟨some [], some [], some [], []⟩, none⟩
        rfl rfl rfl rfl)
  have hall := coordinator_barrier demoFinders "Tokyo" _ _ hr rfl
  exact ⟨hall .flights, hall .hotels, hall .activities⟩
